import Mathlib

/-!
Shallow embedding of `src/co2_env_chamber_6.py`: the CozIR CO2 sensor
data-logger. The embedding covers the frame parser `extract_values`
(lines 59-81), the regex `pattern = H\s*(\d+)\s*T\s*(\d+)\s*Z\s*(\d+)`
(line 35), the sliding-window deque of maxlen 60 (line 121), the plot
consumer `plot_trends` (lines 83-119, modelled up to its failure mode),
and the `while True` acquisition loop (lines 127-151).

Python exceptions are modelled with `Except PyExc`; an `Except.error`
value means the Python code raises an uncaught exception at that point.
Wall-clock time (`datetime.datetime.now()`) is passed in as an explicit
`now : Nat` input. Python floats produced by `/10` are modelled as exact
rationals.
-/

/-- Uncaught Python exceptions that the embedded code can raise. -/
inductive PyExc where
  /-- `bytes.decode` on a byte sequence that is not valid UTF-8. -/
  | unicodeDecodeError
  /-- comparison between incompatible types, e.g. `420 < None`. -/
  | typeError
  /-- unpacking mismatch, e.g. `a, b, c, d = zip(*[])`. -/
  | valueError
  deriving DecidableEq, Repr

/-- Byte in the continuation range `0x80..0xBF` of UTF-8. -/
def isContByte (b : Nat) : Bool := 0x80 ≤ b && b < 0xC0

/-- Decode one UTF-8 scalar value: given the lead byte `b` and the
following bytes, return the code point and the number of continuation
bytes consumed, or `none` on malformed input. Strict, as Python
`bytes.decode` with the default error handler: rejects lone continuation
bytes, overlong encodings, surrogate code points and leads above `0xF4`. -/
def utf8DecodeOne (b : Nat) (rest : List Nat) : Option (Nat × Nat) :=
  if b < 0x80 then some (b, 0)
  else if b < 0xC2 then none
  else if b ≤ 0xDF then
    match rest with
    | b1 :: _ => if isContByte b1 then some ((b - 0xC0) * 0x40 + (b1 - 0x80), 1) else none
    | [] => none
  else if b ≤ 0xEF then
    match rest with
    | b1 :: b2 :: _ =>
      if isContByte b1 && isContByte b2 &&
          (decide (b ≠ 0xE0) || decide (0xA0 ≤ b1)) &&
          (decide (b ≠ 0xED) || decide (b1 ≤ 0x9F)) then
        some ((b - 0xE0) * 0x1000 + (b1 - 0x80) * 0x40 + (b2 - 0x80), 2)
      else none
    | _ => none
  else if b ≤ 0xF4 then
    match rest with
    | b1 :: b2 :: b3 :: _ =>
      if isContByte b1 && isContByte b2 && isContByte b3 &&
          (decide (b ≠ 0xF0) || decide (0x90 ≤ b1)) &&
          (decide (b ≠ 0xF4) || decide (b1 ≤ 0x8F)) then
        some ((b - 0xF0) * 0x40000 + (b1 - 0x80) * 0x1000 + (b2 - 0x80) * 0x40 + (b3 - 0x80), 3)
      else none
    | _ => none
  else none

/-- Fuel-driven UTF-8 decoding loop. Each step consumes at least one
byte and one unit of fuel, so fuel equal to the byte count never runs
out before the input does. -/
def decodeUtf8Aux : Nat → List Nat → Option (List Char)
  | _, [] => some []
  | 0, _ :: _ => none
  | fuel + 1, b :: rest =>
    match utf8DecodeOne b rest with
    | none => none
    | some (cp, k) =>
      (decodeUtf8Aux fuel (rest.drop k)).map (fun cs => Char.ofNat cp :: cs)

/-- Strict UTF-8 decoding of a byte list, as Python `bytes.decode`.
Returns `none` where Python raises `UnicodeDecodeError`. -/
def decodeUtf8 (bs : List Nat) : Option (List Char) :=
  decodeUtf8Aux bs.length bs

/-- Character class `\s` of the Python `re` module (ASCII part). -/
def isSpaceChar (c : Char) : Bool :=
  c = ' ' || c = '\t' || c = '\n' || c = '\x0b' || c = '\x0c' || c = '\r'

/-- Character class `\d` of the Python `re` module (ASCII digits). -/
def isDigitChar (c : Char) : Bool := '0' ≤ c && c ≤ '9'

/-- Greedy `\s*`: drop the maximal run of whitespace. -/
def skipSpaces (cs : List Char) : List Char := cs.dropWhile isSpaceChar

/-- Greedy `(\d+)`: read the maximal nonempty run of digits as a decimal
natural number and return it with the remaining characters; `none` when
the first character is not a digit. -/
def readDigits (cs : List Char) : Option (Nat × List Char) :=
  match cs.span isDigitChar with
  | (ds, rest) => if ds.isEmpty then none else
      some (ds.foldl (fun a c => 10 * a + (c.toNat - 48)) 0, rest)

/-- Attempt to match `H\s*(\d+)\s*T\s*(\d+)\s*Z\s*(\d+)` at the start of
the character list, returning the three captured integers. Greedy
matching without backtracking is equivalent to the regex here because no
character is in both `\s` and `\d` and every literal (`H`, `T`, `Z`) is
in neither. -/
def matchHTZ (cs : List Char) : Option (Nat × Nat × Nat) :=
  match cs with
  | 'H' :: r0 =>
    match readDigits (skipSpaces r0) with
    | none => none
    | some (a, r1) =>
      match skipSpaces r1 with
      | 'T' :: r2 =>
        match readDigits (skipSpaces r2) with
        | none => none
        | some (b, r3) =>
          match skipSpaces r3 with
          | 'Z' :: r4 =>
            match readDigits (skipSpaces r4) with
            | none => none
            | some (c, _) => some (a, b, c)
          | _ => none
      | _ => none
  | _ => none

/-- `pattern.search`: try the match at each start position from the
left; the leftmost successful match wins (the regex is unanchored). -/
def searchHTZ : List Char → Option (Nat × Nat × Nat)
  | [] => none
  | c :: cs =>
    match matchHTZ (c :: cs) with
    | some g => some g
    | none => searchHTZ cs

/-- Result tuple of `extract_values`: `(current_dtime, h_value, t_value,
z_value)`, each `None` or a value, exactly as the Python quadruple. -/
abbrev Quad : Type := Option Nat × Option ℚ × Option ℚ × Option ℤ

/-- Embedding of `extract_values` (lines 59-81): decode the bytes as
UTF-8 (raising `UnicodeDecodeError` on failure), search for the pattern,
and on a match return `(now, a/10, (b-1000)/10, c)`; otherwise return
the all-`None` quadruple. The wall clock `datetime.datetime.now()` is
the explicit argument `now`. -/
def extract_values (now : Nat) (bs : List Nat) : Except PyExc Quad :=
  match decodeUtf8 bs with
  | none => .error .unicodeDecodeError
  | some cs =>
    match searchHTZ cs with
    | some (a, b, c) =>
      .ok (some now, some ((a : ℚ) / 10), some (((b : ℚ) - 1000) / 10), some (c : ℤ))
    | none => .ok (none, none, none, none)

/-- ASCII bytes of a string (all characters used in concrete inputs in
this file are ASCII, so this agrees with UTF-8 encoding). -/
def strBytes (s : String) : List Nat := s.toList.map Char.toNat

/-- Actuator command for the CO2 valve: `On` = `GPIO.output(Co2_valve,
True)`, `Off` = `GPIO.output(Co2_valve, False)`. -/
inductive ActuatorCommand where
  | On
  | Off
  deriving DecidableEq, Repr

/-- Embedding of the valve decision (lines 133-138): `if 420 < z_value <
510` drive the valve `False` (Off), else drive it `True` (On), for an
integer `z_value`. -/
def valve_decision (z : ℤ) : ActuatorCommand :=
  if 420 < z ∧ z < 510 then .Off else .On

/-- Python chained comparison `420 < z_value < 510` when `z_value` may
be `None`: comparing `None` with an `int` raises `TypeError`. -/
def valve_decision_opt (z : Option ℤ) : Except PyExc ActuatorCommand :=
  match z with
  | none => .error .typeError
  | some v => .ok (valve_decision v)

/-- Successfully parsed record as stored in the deque and the CSV:
`(current_dtime, h_value, t_value, z_value)`. -/
abbrev Rec : Type := Nat × ℚ × ℚ × ℤ

/-- Last `k` elements of a list, in order. -/
def lastN {α : Type} (k : Nat) (l : List α) : List α := l.drop (l.length - k)

/-- Append to a `collections.deque` with `maxlen = k`: the new element
goes on the right and, when the length would exceed `k`, elements are
discarded from the left. Stated polymorphically; the loop instantiates
it at `Rec` with `k = 60`. -/
def dequePush {α : Type} (k : Nat) (w : List α) (x : α) : List α :=
  (w ++ [x]).drop ((w ++ [x]).length - k)

/-- The loop's `data.append(...)` on the `deque(maxlen=60)`. -/
def dequeAppend (k : Nat) (w : List Rec) (x : Rec) : List Rec :=
  dequePush k w x

/-- Window contents after pushing the list `xs` in order into an
initially empty deque of maxlen `k`. -/
def windowAfter {α : Type} (k : Nat) (xs : List α) : List α :=
  xs.foldl (dequePush k) []

/-- Embedding of `plot_trends` (lines 83-119) up to its failure mode:
`timestamps, h_values, t_values, z_values = zip(*data)` raises
`ValueError` when `data` is empty (zero values to unpack into four
names); otherwise it produces the four per-field series. The actual
drawing calls are side effects outside the model. -/
def plot_trends (data : List Rec) : Except PyExc (List Nat × List ℚ × List ℚ × List ℤ) :=
  match data with
  | [] => .error .valueError
  | _ :: _ =>
    .ok (data.map (fun r => r.1), data.map (fun r => r.2.1),
      data.map (fun r => r.2.2.1), data.map (fun r => r.2.2.2))

/-- Deque capacity: `data = deque(maxlen=60)` (line 121). -/
def capacity : Nat := 60

/-- Plot cadence threshold: `plot_interval = 10` (line 122). -/
def plot_interval : Nat := 10

/-- Observable state of one run of the `while True` loop: the sliding
window `data`, the rows appended to the CSV file, the sequence of valve
commands issued to the GPIO pin, and the window snapshots handed to
`plot_trends`, all in chronological order. -/
structure LoopState where
  window : List Rec
  csv : List Rec
  valve : List ActuatorCommand
  renders : List (List Rec)
  deriving DecidableEq, Repr

/-- State at entry of the loop: empty deque, nothing written, no
commands issued, no plots drawn. -/
def initState : LoopState :=
  { window := [], csv := [], valve := [], renders := [] }

/-- One iteration of the `while True` loop (lines 127-151) on the line
`bs` read from the serial port at wall-clock time `now`:
`extract_values`, then the valve decision on `z_value` (before the
`None` guard, exactly as in the source), then, when no component is
`None`, the deque append, the CSV write and, when `len(data) >=
plot_interval`, the call to `plot_trends`. An `Except.error` means the
iteration raises and the loop terminates with the exception. -/
def loopStep (st : LoopState) (now : Nat) (bs : List Nat) : Except PyExc LoopState :=
  match extract_values now bs with
  | .error e => .error e
  | .ok (dt, h, t, z) =>
    match valve_decision_opt z with
    | .error e => .error e
    | .ok cmd =>
      let st1 : LoopState := { st with valve := st.valve ++ [cmd] }
      match dt, h, t, z with
      | some dtv, some hv, some tv, some zv =>
        let r : Rec := (dtv, hv, tv, zv)
        let w := dequeAppend capacity st1.window r
        let st2 : LoopState := { st1 with window := w, csv := st1.csv ++ [r] }
        if plot_interval ≤ w.length then
          match plot_trends w with
          | .error e => .error e
          | .ok _ => .ok { st2 with renders := st2.renders ++ [w] }
        else .ok st2
      | _, _, _, _ => .ok st1

/-- Run the loop over a list of timed input lines, stopping at the first
uncaught exception; returns the state reached so far and the exception,
if any. -/
def runLoop : LoopState → List (Nat × List Nat) → LoopState × Option PyExc
  | st, [] => (st, none)
  | st, (now, bs) :: rest =>
    match loopStep st now bs with
    | .ok st' => runLoop st' rest
    | .error e => (st, some e)

/-- Character of a decimal digit. -/
def digitChar (d : Nat) : Char := Char.ofNat (48 + d)

/-- Decimal representation of a natural number, most significant digit
first, as the sensor prints it. -/
def decRep (n : Nat) : List Char :=
  if n = 0 then ['0'] else (Nat.digits 10 n).reverse.map digitChar

/-- Characters of the valid frame `H<a> T<b> Z<c>`. -/
def frameChars (a b c : Nat) : List Char :=
  'H' :: decRep a ++ ' ' :: 'T' :: decRep b ++ ' ' :: 'Z' :: decRep c

/-- UTF-8 (here: ASCII) bytes of the valid frame `H<a> T<b> Z<c>`. -/
def frameBytes (a b c : Nat) : List Nat := (frameChars a b c).map Char.toNat

/-- A representative valid sensor line: humidity 50.0, temperature 25.0,
CO2 465 ppm. -/
def validFrame : List Nat := strBytes "H500 T1250 Z465"

/-- Six timed lines matching the end-to-end band test: Z = 419, 420,
465, 509, 510, 600. -/
def bandProbeFrames : List (Nat × List Nat) :=
  [(0, strBytes "H500 T1250 Z419"), (1, strBytes "H500 T1250 Z420"),
   (2, strBytes "H500 T1250 Z465"), (3, strBytes "H500 T1250 Z509"),
   (4, strBytes "H500 T1250 Z510"), (5, strBytes "H500 T1250 Z600")]

/-- Ten consecutive valid lines. -/
def tenValidFrames : List (Nat × List Nat) :=
  (List.range 10).map (fun i => (i, validFrame))

/-- Eleven consecutive valid lines. -/
def elevenValidFrames : List (Nat × List Nat) :=
  (List.range 11).map (fun i => (i, validFrame))

/-- The first window snapshot handed to `plot_trends` during a run over
`tenValidFrames`. -/
def firstRenderSnapshot : List Rec :=
  (runLoop initState tenValidFrames).1.renders.headI

lemma digitChar_isDigit {d : Nat} (hd : d < 10) : isDigitChar (digitChar d) = true := by
  interval_cases d <;> decide

lemma digitChar_toNat {d : Nat} (hd : d < 10) : (digitChar d).toNat = 48 + d := by
  interval_cases d <;> decide

lemma digitChar_ascii {d : Nat} (hd : d < 10) : (digitChar d).toNat < 128 := by
  interval_cases d <;> decide

lemma decRep_all_digit (n : Nat) : ∀ c ∈ decRep n, isDigitChar c = true := by
  intro c hc
  unfold decRep at hc
  split at hc
  · simp only [List.mem_singleton] at hc
    subst hc; decide
  · simp only [List.mem_map, List.mem_reverse] at hc
    obtain ⟨d, hd, rfl⟩ := hc
    exact digitChar_isDigit (Nat.digits_lt_base (by norm_num) hd)

lemma decRep_ne_nil (n : Nat) : decRep n ≠ [] := by
  unfold decRep
  split
  · simp
  · simp [Nat.digits_ne_nil_iff_ne_zero.mpr (by assumption)]

lemma decRep_ascii (n : Nat) : ∀ c ∈ decRep n, c.toNat < 128 := by
  intro c hc
  unfold decRep at hc
  split at hc
  · simp only [List.mem_singleton] at hc
    subst hc; decide
  · simp only [List.mem_map, List.mem_reverse] at hc
    obtain ⟨d, hd, rfl⟩ := hc
    exact digitChar_ascii (Nat.digits_lt_base (by norm_num) hd)

lemma foldl_map_digitChar (es : List Nat) (acc : Nat) (h : ∀ d ∈ es, d < 10) :
    (es.map digitChar).foldl (fun a c => 10 * a + (c.toNat - 48)) acc
      = acc * 10 ^ es.length + Nat.ofDigits 10 es.reverse := by
  induction es generalizing acc with
  | nil => simp [Nat.ofDigits]
  | cons e tl ih =>
    have he : e < 10 := h e (by simp)
    have htl : ∀ d ∈ tl, d < 10 := fun d hd => h d (by simp [hd])
    simp only [List.map_cons, List.foldl_cons, List.reverse_cons, List.length_cons]
    rw [ih _ htl, digitChar_toNat he, Nat.ofDigits_append]
    simp [Nat.ofDigits_singleton, pow_succ]
    ring

lemma foldl_decRep (n : Nat) :
    (decRep n).foldl (fun a c => 10 * a + (c.toNat - 48)) 0 = n := by
  unfold decRep
  split
  · subst_vars; decide
  · rw [foldl_map_digitChar _ _ (fun d hd => Nat.digits_lt_base (by norm_num) (by simpa using hd))]
    simp [List.reverse_reverse, Nat.ofDigits_digits]

lemma readDigits_decRep (n : Nat) (rest : List Char)
    (h : ∀ c, rest.head? = some c → isDigitChar c = false) :
    readDigits (decRep n ++ rest) = some (n, rest) := by
  have hrest : rest.takeWhile isDigitChar = [] ∧ rest.dropWhile isDigitChar = rest := by
    cases rest with
    | nil => simp
    | cons c tl =>
      have hc : isDigitChar c = false := h c rfl
      constructor
      · rw [List.takeWhile_cons, hc]; simp
      · rw [List.dropWhile_cons, hc]; simp
  have htake : (decRep n ++ rest).takeWhile isDigitChar = decRep n := by
    rw [List.takeWhile_append]
    rw [List.takeWhile_eq_self_iff.mpr (decRep_all_digit n)]
    simp [hrest.1]
  have hdrop : (decRep n ++ rest).dropWhile isDigitChar = rest := by
    rw [List.dropWhile_append]
    rw [List.dropWhile_eq_nil_iff.mpr (decRep_all_digit n)]
    simp [hrest.2]
  unfold readDigits
  rw [List.span_eq_take_drop, htake, hdrop]
  have hne : (decRep n).isEmpty = false := by
    cases hd : decRep n with
    | nil => exact absurd hd (decRep_ne_nil n)
    | cons a tl => rfl
  simp [hne, foldl_decRep n]

lemma decodeUtf8Aux_ascii (cs : List Char) (h : ∀ c ∈ cs, c.toNat < 128) :
    ∀ fuel, cs.length ≤ fuel → decodeUtf8Aux fuel (cs.map Char.toNat) = some cs := by
  induction cs with
  | nil => intro fuel _; cases fuel <;> rfl
  | cons c tl ih =>
    intro fuel hf
    have hc : c.toNat < 128 := h c (by simp)
    cases fuel with
    | zero => simp at hf
    | succ f =>
      have htl := ih (fun x hx => h x (by simp [hx])) f (by simp at hf; omega)
      simp only [List.map_cons, decodeUtf8Aux, utf8DecodeOne, if_pos hc]
      rw [List.drop_zero, htl]
      simp [Char.ofNat_toNat]

lemma decodeUtf8_ascii (cs : List Char) (h : ∀ c ∈ cs, c.toNat < 128) :
    decodeUtf8 (cs.map Char.toNat) = some cs := by
  unfold decodeUtf8
  exact decodeUtf8Aux_ascii cs h _ (by simp)

lemma space_not_digit {x : Char} (h : isSpaceChar x = true) : isDigitChar x = false := by
  simp only [isSpaceChar, Bool.or_eq_true, decide_eq_true_eq] at h
  rcases h with ((((h | h) | h) | h) | h) | h <;> subst h <;> decide

lemma skipSpaces_append (u rest : List Char) (h : ∀ c ∈ u, isSpaceChar c = true) :
    skipSpaces (u ++ rest) = skipSpaces rest := by
  unfold skipSpaces
  rw [List.dropWhile_append, List.dropWhile_eq_nil_iff.mpr h]
  simp

lemma skipSpaces_cons_of_not_space {x : Char} (l : List Char) (h : isSpaceChar x = false) :
    skipSpaces (x :: l) = x :: l := by
  unfold skipSpaces
  rw [List.dropWhile_cons, h]
  simp

lemma skipSpaces_decRep_append (n : Nat) (rest : List Char) :
    skipSpaces (decRep n ++ rest) = decRep n ++ rest := by
  cases hd : decRep n with
  | nil => exact absurd hd (decRep_ne_nil n)
  | cons a tl =>
    have ha : isDigitChar a = true := decRep_all_digit n a (by rw [hd]; simp)
    have hs : isSpaceChar a = false := by
      cases hsp : isSpaceChar a with
      | false => rfl
      | true => rw [space_not_digit hsp] at ha; exact absurd ha (by simp)
    simp only [List.cons_append]
    exact skipSpaces_cons_of_not_space _ hs

lemma head_not_digit_marker (u : List Char) (m : Char) (rest : List Char)
    (hu : ∀ x ∈ u, isSpaceChar x = true) (hm : isDigitChar m = false) :
    ∀ x, (u ++ m :: rest).head? = some x → isDigitChar x = false := by
  intro x hx
  cases u with
  | nil =>
    simp only [List.nil_append, List.head?_cons, Option.some.injEq] at hx
    subst hx; exact hm
  | cons y tl =>
    simp only [List.cons_append, List.head?_cons, Option.some.injEq] at hx
    subst hx
    exact space_not_digit (hu y (by simp))

lemma head_not_digit_spaces (u : List Char) (hu : ∀ x ∈ u, isSpaceChar x = true) :
    ∀ x, u.head? = some x → isDigitChar x = false := by
  intro x hx
  cases u with
  | nil => simp at hx
  | cons y tl =>
    simp only [List.head?_cons, Option.some.injEq] at hx
    subst hx
    exact space_not_digit (hu y (by simp))

lemma matchHTZ_frame (a b c : Nat) (u1 u2 u3 u4 u5 u6 : List Char)
    (h1 : ∀ x ∈ u1, isSpaceChar x = true) (h2 : ∀ x ∈ u2, isSpaceChar x = true)
    (h3 : ∀ x ∈ u3, isSpaceChar x = true) (h4 : ∀ x ∈ u4, isSpaceChar x = true)
    (h5 : ∀ x ∈ u5, isSpaceChar x = true) (h6 : ∀ x ∈ u6, isSpaceChar x = true) :
    matchHTZ ('H' :: (u1 ++ (decRep a ++ (u2 ++ ('T' :: (u3 ++ (decRep b ++ (u4 ++
      ('Z' :: (u5 ++ (decRep c ++ u6))))))))))) = some (a, b, c) := by
  have sa : skipSpaces (u1 ++ (decRep a ++ (u2 ++ ('T' :: (u3 ++ (decRep b ++ (u4 ++
      ('Z' :: (u5 ++ (decRep c ++ u6)))))))))) = decRep a ++ (u2 ++ ('T' :: (u3 ++
      (decRep b ++ (u4 ++ ('Z' :: (u5 ++ (decRep c ++ u6)))))))) := by
    rw [skipSpaces_append _ _ h1, skipSpaces_decRep_append]
  have ra : readDigits (decRep a ++ (u2 ++ ('T' :: (u3 ++ (decRep b ++ (u4 ++
      ('Z' :: (u5 ++ (decRep c ++ u6))))))))) = some (a, u2 ++ ('T' :: (u3 ++
      (decRep b ++ (u4 ++ ('Z' :: (u5 ++ (decRep c ++ u6)))))))) := by
    exact readDigits_decRep _ _ (head_not_digit_marker u2 'T' _ h2 (by decide))
  have sb : skipSpaces (u2 ++ ('T' :: (u3 ++ (decRep b ++ (u4 ++ ('Z' :: (u5 ++
      (decRep c ++ u6)))))))) = 'T' :: (u3 ++ (decRep b ++ (u4 ++ ('Z' :: (u5 ++
      (decRep c ++ u6)))))) := by
    rw [skipSpaces_append _ _ h2, skipSpaces_cons_of_not_space _ (by decide)]
  have sc : skipSpaces (u3 ++ (decRep b ++ (u4 ++ ('Z' :: (u5 ++ (decRep c ++ u6)))))) =
      decRep b ++ (u4 ++ ('Z' :: (u5 ++ (decRep c ++ u6)))) := by
    rw [skipSpaces_append _ _ h3, skipSpaces_decRep_append]
  have rb : readDigits (decRep b ++ (u4 ++ ('Z' :: (u5 ++ (decRep c ++ u6))))) =
      some (b, u4 ++ ('Z' :: (u5 ++ (decRep c ++ u6)))) := by
    exact readDigits_decRep _ _ (head_not_digit_marker u4 'Z' _ h4 (by decide))
  have sd : skipSpaces (u4 ++ ('Z' :: (u5 ++ (decRep c ++ u6)))) =
      'Z' :: (u5 ++ (decRep c ++ u6)) := by
    rw [skipSpaces_append _ _ h4, skipSpaces_cons_of_not_space _ (by decide)]
  have se : skipSpaces (u5 ++ (decRep c ++ u6)) = decRep c ++ u6 := by
    rw [skipSpaces_append _ _ h5, skipSpaces_decRep_append]
  have rc : readDigits (decRep c ++ u6) = some (c, u6) := by
    exact readDigits_decRep _ _ (head_not_digit_spaces u6 h6)
  simp only [matchHTZ, sa, ra, sb, sc, rb, sd, se, rc]

lemma searchHTZ_of_match {cs : List Char} {g : Nat × Nat × Nat}
    (hne : cs ≠ []) (h : matchHTZ cs = some g) : searchHTZ cs = some g := by
  cases cs with
  | nil => exact absurd rfl hne
  | cons x tl => simp only [searchHTZ, h]

lemma isSpaceChar_ascii {x : Char} (h : isSpaceChar x = true) : x.toNat < 128 := by
  simp only [isSpaceChar, Bool.or_eq_true, decide_eq_true_eq] at h
  rcases h with ((((h | h) | h) | h) | h) | h <;> subst h <;> decide

lemma frameChars_ascii (a b c : Nat) : ∀ x ∈ frameChars a b c, x.toNat < 128 := by
  intro x hx
  unfold frameChars at hx
  simp only [List.mem_cons, List.mem_append] at hx
  casesm* _ ∨ _ <;>
    first
      | (subst_vars; decide)
      | exact decRep_ascii a x (by assumption)
      | exact decRep_ascii b x (by assumption)
      | exact decRep_ascii c x (by assumption)

lemma searchHTZ_frameChars (a b c : Nat) :
    searchHTZ (frameChars a b c) = some (a, b, c) := by
  have hm := matchHTZ_frame a b c [] [' '] [] [' '] [] [] (by simp)
    (by intro x hx; simp at hx; subst hx; decide) (by simp)
    (by intro x hx; simp at hx; subst hx; decide) (by simp) (by simp)
  have hfc : frameChars a b c = 'H' :: ([] ++ (decRep a ++ ([' '] ++ ('T' :: ([] ++
      (decRep b ++ ([' '] ++ ('Z' :: ([] ++ (decRep c ++ ([] : List Char))))))))))) := by
    simp [frameChars]
  have hmatch : matchHTZ (frameChars a b c) = some (a, b, c) := by
    rw [hfc]; exact hm
  exact searchHTZ_of_match (by simp [frameChars]) hmatch

lemma extract_values_frame (now a b c : Nat) :
    extract_values now (frameBytes a b c) =
      .ok (some now, some ((a : ℚ) / 10), some (((b : ℚ) - 1000) / 10), some (c : ℤ)) := by
  unfold extract_values frameBytes
  rw [decodeUtf8_ascii _ (frameChars_ascii a b c)]
  simp [searchHTZ_frameChars a b c]

lemma length_lastN {α : Type} (k : Nat) (l : List α) :
    (lastN k l).length = min l.length k := by
  unfold lastN
  rw [List.length_drop]
  omega

lemma lastN_nil {α : Type} (k : Nat) : lastN k ([] : List α) = [] := by
  simp [lastN]

lemma dequePush_eq_lastN {α : Type} (k : Nat) (w : List α) (x : α) :
    dequePush k w x = lastN k (w ++ [x]) := rfl

lemma lastN_lastN_append {α : Type} (k : Nat) (v : List α) (x : α) :
    lastN k (lastN k v ++ [x]) = lastN k (v ++ [x]) := by
  unfold lastN
  rcases Nat.lt_or_ge k 1 with hk | hk
  · interval_cases k
    rw [List.drop_eq_nil_of_le (by simp), List.drop_eq_nil_of_le (by simp)]
  · rcases Nat.lt_or_ge v.length k with hm | hm
    · rw [show v.length - k = 0 from by omega, List.drop_zero]
    · have hlen : (v.drop (v.length - k)).length = k := by
        rw [List.length_drop]; omega
      have h1 : (v.drop (v.length - k) ++ [x]).length - k = 1 := by
        rw [List.length_append, hlen]; simp
      have h2 : (v ++ [x]).length - k = v.length + 1 - k := by
        rw [List.length_append]; simp
      rw [h1, h2]
      rw [List.drop_append_of_le_length (by rw [hlen]; omega),
        List.drop_append_of_le_length (by omega)]
      rw [List.drop_drop]
      rw [show v.length - k + 1 = v.length + 1 - k from by omega]

lemma foldl_dequePush {α : Type} (k : Nat) (xs v : List α) :
    xs.foldl (dequePush k) (lastN k v) = lastN k (v ++ xs) := by
  induction xs generalizing v with
  | nil => simp
  | cons x tl ih =>
    rw [List.foldl_cons, dequePush_eq_lastN, lastN_lastN_append]
    have := ih (v ++ [x])
    rw [this]
    simp

lemma windowAfter_eq_lastN {α : Type} (k : Nat) (xs : List α) :
    windowAfter k xs = lastN k xs := by
  unfold windowAfter
  have h0 : ([] : List α) = lastN k [] := (lastN_nil k).symm
  rw [h0, foldl_dequePush]
  simp

lemma loopStep_rendersOk {st st' : LoopState} {now : Nat} {bs : List Nat}
    (h : ∀ r ∈ st.renders, plot_interval ≤ r.length)
    (hs : loopStep st now bs = .ok st') :
    ∀ r ∈ st'.renders, plot_interval ≤ r.length := by
  unfold loopStep at hs
  cases hev : extract_values now bs with
  | error e => rw [hev] at hs; exact absurd hs (by simp)
  | ok q =>
    obtain ⟨dt, h1, t1, z⟩ := q
    rw [hev] at hs
    cases z with
    | none => exact absurd hs (by simp [valve_decision_opt])
    | some zv =>
      simp only [valve_decision_opt] at hs
      cases dt with
      | none =>
        cases h1 <;> cases t1 <;> (injection hs with hs; subst hs; exact h)
      | some dtv =>
        cases h1 with
        | none =>
          cases t1 <;> (injection hs with hs; subst hs; exact h)
        | some hv =>
          cases t1 with
          | none => injection hs with hs; subst hs; exact h
          | some tv =>
            simp only [] at hs
            split at hs
            · cases hpt : plot_trends (dequeAppend capacity st.window (dtv, hv, tv, zv)) with
              | error e => rw [hpt] at hs; exact absurd hs (by simp)
              | ok res =>
                rw [hpt] at hs
                injection hs with hs
                subst hs
                intro r hr
                simp only [List.mem_append, List.mem_singleton] at hr
                rcases hr with hr | hr
                · exact h r hr
                · subst hr
                  assumption
            · injection hs with hs
              subst hs
              exact h

lemma runLoop_rendersOk (inputs : List (Nat × List Nat)) (st : LoopState)
    (h : ∀ r ∈ st.renders, plot_interval ≤ r.length) :
    ∀ r ∈ (runLoop st inputs).1.renders, plot_interval ≤ r.length := by
  induction inputs generalizing st with
  | nil => simpa [runLoop]
  | cons p rest ih =>
    obtain ⟨now, bs⟩ := p
    cases hs : loopStep st now bs with
    | ok st' =>
      have := ih st' (loopStep_rendersOk h hs)
      simpa [runLoop, hs]
    | error e => simpa [runLoop, hs]

/-- C1: the claim says a parse failure issues no actuator command,
leaves window and persistence untouched, and is never fatal to the loop.
The code evaluates `420 < z_value < 510` with `z_value = None` before
the `None` guard (line 133 precedes line 140), so the first malformed
line raises an uncaught `TypeError` that kills the loop: running on the
single undecodable-pattern line `"garbage"` indeed issues no command and
changes no state, but terminates with `TypeError` instead of returning
to the next read. -/
theorem parse_failure_raises_TypeError :
    runLoop initState [(0, strBytes "garbage")] = (initState, some PyExc.typeError) := rfl

/-- C2: the valve decision is `Off` exactly when `420 < z < 510`, `On`
exactly when `z ≤ 420` or `510 ≤ z` (both boundaries give `On`), and the
end-to-end run over frames with Z = 419, 420, 465, 509, 510, 600 issues
the commands On, On, Off, Off, On, On in order. -/
theorem valve_decision_band (z : ℤ) :
    (valve_decision z = .Off ↔ (420 < z ∧ z < 510)) ∧
    (valve_decision z = .On ↔ (z ≤ 420 ∨ 510 ≤ z)) ∧
    (valve_decision 419 = .On ∧ valve_decision 420 = .On ∧ valve_decision 465 = .Off ∧
      valve_decision 509 = .Off ∧ valve_decision 510 = .On ∧ valve_decision 600 = .On) ∧
    (runLoop initState bandProbeFrames).1.valve = [.On, .On, .Off, .Off, .On, .On] := by
  refine ⟨?_, ?_, by decide, by decide⟩
  all_goals by_cases hc : (420 < z ∧ z < 510)
  all_goals simp [valve_decision, hc]
  all_goals omega

/-- C3 counterexample: on the invalid UTF-8 byte sequence `[0xff]`,
`extract_values` raises `UnicodeDecodeError` — an uncaught exception,
not a returned error value — so parsing is not total over all byte
sequences as the claim states. -/
theorem extract_values_raises_on_bad_bytes :
    extract_values 0 [0xff] = .error .unicodeDecodeError := rfl

/-- C3 amended: over every byte sequence that decodes as UTF-8,
`extract_values` never raises: it returns a quadruple, and whenever the
pattern search fails it returns the all-`None` failure value. On byte
sequences that are not valid UTF-8 the code raises `UnicodeDecodeError`
rather than returning an error value. -/
theorem extract_values_total_on_decodable (now : Nat) (bs : List Nat) (cs : List Char)
    (hdec : decodeUtf8 bs = some cs) :
    (∃ q : Quad, extract_values now bs = .ok q) ∧
    (searchHTZ cs = none → extract_values now bs = .ok (none, none, none, none)) := by
  cases hs : searchHTZ cs with
  | none =>
    refine ⟨⟨(none, none, none, none), ?_⟩, fun _ => ?_⟩ <;>
      simp [extract_values, hdec, hs]
  | some g =>
    obtain ⟨a, b, c⟩ := g
    simp only [extract_values, hdec, hs]
    refine ⟨⟨_, rfl⟩, fun h => ?_⟩
    simp at h

/-- C3 witness: the decodable, non-matching line `"garbage"` yields the
all-`None` quadruple without an exception. -/
theorem extract_values_total_on_decodable_witness :
    extract_values 0 (strBytes "garbage") = .ok (none, none, none, none) :=
  (extract_values_total_on_decodable 0 (strBytes "garbage") "garbage".toList rfl).2 rfl

/-- C4: every valid frame `H<a> T<b> Z<c>` with natural numbers `a`,
`b`, `c` parses successfully to humidity `a/10`, temperature
`(b-1000)/10` and CO2 `c` taken literally, and the temperature is
negative exactly when `b < 1000`. -/
theorem frame_parse_values (now a b c : Nat) :
    extract_values now (frameBytes a b c) =
      .ok (some now, some ((a : ℚ) / 10), some (((b : ℚ) - 1000) / 10), some (c : ℤ)) ∧
    (((b : ℚ) - 1000) / 10 < 0 ↔ b < 1000) := by
  refine ⟨extract_values_frame now a b c, ?_⟩
  rw [div_lt_iff₀ (by norm_num : (0 : ℚ) < 10), zero_mul, sub_neg]
  exact_mod_cast Iff.rfl

set_option maxRecDepth 8000 in
/-- C5: pushing `n` elements into a deque of maxlen `k` leaves exactly
the last `min n k` pushed elements, in arrival order (FIFO eviction of
the oldest); in particular 65 pushes into the capacity-60 window evict
the 5 oldest and leave length 60. -/
theorem sliding_window_fifo (α : Type) (k : Nat) (xs : List α) :
    (windowAfter k xs).length = min xs.length k ∧
    windowAfter k xs = lastN k xs ∧
    windowAfter capacity (List.range 65) = (List.range 65).drop 5 ∧
    (windowAfter capacity (List.range 65)).length = 60 := by
  refine ⟨?_, windowAfter_eq_lastN k xs, by decide, by decide⟩
  rw [windowAfter_eq_lastN, length_lastN]

/-- C6: the claim (and the comment on line 122 of the source) says the
renderer runs once per `plot_interval` = 10 successful readings; the
code instead tests `len(data) >= plot_interval` and therefore calls
`plot_trends` on every successful reading from the tenth onward: after
11 valid readings it has been invoked twice (on readings 10 and 11), not
once. -/
theorem plot_runs_every_reading_after_threshold :
    ((runLoop initState elevenValidFrames).1.renders).length = 2 := by decide

/-- C7 counterexample: in the line `"H1 x T1000 Z5"` the three marker
groups appear in order, separated by whitespace and one other
non-whitespace character, yet the parse fails (the pattern only allows
whitespace between the groups). -/
theorem nonspace_separator_parse_fails :
    extract_values 0 (strBytes "H1 x T1000 Z5") = .ok (none, none, none, none) := rfl

/-- C7 amended: for every decoded line consisting of the three marker
groups in order separated by arbitrary whitespace only (no other
characters between the matched groups), the pattern search succeeds and
captures the three integers. -/
theorem pattern_matches_whitespace_separated (a b c : Nat) (u1 u2 u3 u4 u5 u6 : List Char)
    (h1 : ∀ x ∈ u1, isSpaceChar x = true) (h2 : ∀ x ∈ u2, isSpaceChar x = true)
    (h3 : ∀ x ∈ u3, isSpaceChar x = true) (h4 : ∀ x ∈ u4, isSpaceChar x = true)
    (h5 : ∀ x ∈ u5, isSpaceChar x = true) (h6 : ∀ x ∈ u6, isSpaceChar x = true) :
    searchHTZ ('H' :: (u1 ++ (decRep a ++ (u2 ++ ('T' :: (u3 ++ (decRep b ++ (u4 ++
      ('Z' :: (u5 ++ (decRep c ++ u6))))))))))) = some (a, b, c) :=
  searchHTZ_of_match (by simp)
    (matchHTZ_frame a b c u1 u2 u3 u4 u5 u6 h1 h2 h3 h4 h5 h6)

/-- C7 witness: the whitespace-separated line `"H 1 T 1000 Z 5"`
captures the groups 1, 1000, 5. -/
theorem pattern_matches_whitespace_separated_witness :
    searchHTZ ('H' :: ([' '] ++ (decRep 1 ++ ([' '] ++ ('T' :: ([' '] ++ (decRep 1000 ++
      ([' '] ++ ('Z' :: ([' '] ++ (decRep 5 ++ ([] : List Char)))))))))))) = some (1, 1000, 5) :=
  pattern_matches_whitespace_separated 1 1000 5 [' '] [' '] [' '] [' '] [' '] []
    (by decide) (by decide) (by decide) (by decide) (by decide) (by decide)

/-- C8 counterexample: the line `"Z789 H123 T456"` contains all three
marker groups but with Z first; the parse fails, because the pattern
requires the order H, T, Z. -/
theorem reordered_groups_parse_fails :
    extract_values 0 (strBytes "Z789 H123 T456") = .ok (none, none, none, none) := rfl

/-- C8 amended: a line whose marker groups appear in the order H, T, Z
parses into a reading built from the three integers, while the same
groups reordered with Z first do not parse. -/
theorem markers_in_order_parse (now : Nat) :
    extract_values now (strBytes "H123 T456 Z789") =
      .ok (some now, some ((123 : ℚ) / 10), some (((456 : ℚ) - 1000) / 10), some (789 : ℤ)) ∧
    extract_values now (strBytes "Z789 H123 T456") = .ok (none, none, none, none) :=
  ⟨rfl, rfl⟩

/-- C9: the parser result is all-or-nothing: any quadruple returned by
`extract_values` has either all four components present or all four
`None`, never a mix, so the loop's single `None not in ...` guard
exactly separates successful from failed parses. -/
theorem extract_values_all_or_nothing (now : Nat) (bs : List Nat) (q : Quad)
    (h : extract_values now bs = .ok q) :
    (∃ dtv hv tv zv, q = (some dtv, some hv, some tv, some zv)) ∨
    q = (none, none, none, none) := by
  cases hdec : decodeUtf8 bs with
  | none => simp [extract_values, hdec] at h
  | some cs =>
    cases hs : searchHTZ cs with
    | none =>
      simp only [extract_values, hdec, hs, Except.ok.injEq] at h
      right
      exact h.symm
    | some g =>
      obtain ⟨a, b, c⟩ := g
      simp only [extract_values, hdec, hs, Except.ok.injEq] at h
      left
      exact ⟨now, _, _, _, h.symm⟩

/-- C9 witness: the valid line `"H500 T1250 Z465"` produces an
all-present quadruple. -/
theorem extract_values_all_or_nothing_witness :
    (∃ dtv hv tv zv,
      ((some 3, some ((500 : ℚ) / 10), some (((1250 : ℚ) - 1000) / 10), some (465 : ℤ)) : Quad)
        = (some dtv, some hv, some tv, some zv)) ∨
    ((some 3, some ((500 : ℚ) / 10), some (((1250 : ℚ) - 1000) / 10), some (465 : ℤ)) : Quad)
      = (none, none, none, none) :=
  extract_values_all_or_nothing 3 validFrame _ rfl

/-- C10: every window snapshot the loop hands to `plot_trends` holds at
least `plot_interval` = 10 readings, hence at least one, so the
four-way unpacking in `plot_trends` never fails on an empty sequence. -/
theorem render_snapshots_nonempty (inputs : List (Nat × List Nat)) (r : List Rec)
    (hr : r ∈ (runLoop initState inputs).1.renders) :
    plot_interval ≤ r.length ∧ 1 ≤ r.length ∧ ∃ out, plot_trends r = .ok out := by
  have h10 : plot_interval ≤ r.length :=
    runLoop_rendersOk inputs initState (by simp [initState]) r hr
  have h1 : 1 ≤ r.length := by
    have : plot_interval = 10 := rfl
    omega
  refine ⟨h10, h1, ?_⟩
  cases r with
  | nil => simp at h1
  | cons x tl => exact ⟨_, rfl⟩

lemma headI_mem_of_ne_nil {α : Type} [Inhabited α] {l : List α} (h : l ≠ []) :
    l.headI ∈ l := by
  cases l with
  | nil => exact absurd rfl h
  | cons x tl => simp [List.headI_cons]

/-- C10 witness: the first snapshot rendered during a run over ten valid
lines has at least ten readings and unpacks without error. -/
theorem render_snapshots_nonempty_witness :
    plot_interval ≤ firstRenderSnapshot.length ∧ 1 ≤ firstRenderSnapshot.length ∧
      ∃ out, plot_trends firstRenderSnapshot = .ok out :=
  render_snapshots_nonempty tenValidFrames firstRenderSnapshot
    (headI_mem_of_ne_nil (List.ne_nil_of_length_pos (by decide)))
